import Mathlib

/-!
Verification development for the request-routing core of a JSON-RPC
reverse proxy (proxyd). The repository ships the integration tests of the
routing core together with a small logging helper; the routing pipeline
itself (override engine, router, batch orchestrator) is specified in the
design document and modelled here from that document, while
`printHeader` is embedded directly from its Go source.
-/

/-- JSON values as handled by the proxy: null, booleans, numbers,
strings, arrays and objects (objects keep field order, as the Go
implementation receives them from the wire). -/
inductive Json where
  | null
  | bool (b : Bool)
  | num (n : Int)
  | str (s : String)
  | arr (elems : List Json)
  | obj (fields : List (String × Json))

mutual

/-- Structural boolean equality on JSON values (JSON-value equality). -/
def jsonBeq : Json → Json → Bool
  | .null, .null => true
  | .bool a, .bool b => a == b
  | .num a, .num b => a == b
  | .str a, .str b => a == b
  | .arr a, .arr b => jsonBeqList a b
  | .obj a, .obj b => jsonBeqObj a b
  | _, _ => false

/-- Pointwise `jsonBeq` on arrays. -/
def jsonBeqList : List Json → List Json → Bool
  | [], [] => true
  | x :: xs, y :: ys => jsonBeq x y && jsonBeqList xs ys
  | _, _ => false

/-- Pointwise `jsonBeq` on object field lists. -/
def jsonBeqObj : List (String × Json) → List (String × Json) → Bool
  | [], [] => true
  | (k1, v1) :: xs, (k2, v2) :: ys => k1 == k2 && jsonBeq v1 v2 && jsonBeqObj xs ys
  | _, _ => false

end


mutual

/-- Decidable structural equality on JSON values. -/
def jsonDecEq : (a b : Json) → Decidable (a = b)
  | .null, .null => isTrue rfl
  | .null, .bool _ => isFalse (fun h => Json.noConfusion h)
  | .null, .num _ => isFalse (fun h => Json.noConfusion h)
  | .null, .str _ => isFalse (fun h => Json.noConfusion h)
  | .null, .arr _ => isFalse (fun h => Json.noConfusion h)
  | .null, .obj _ => isFalse (fun h => Json.noConfusion h)
  | .bool _, .null => isFalse (fun h => Json.noConfusion h)
  | .bool a, .bool b =>
    if h : a = b then isTrue (by rw [h]) else
      isFalse (fun hh => h (Json.bool.inj hh))
  | .bool _, .num _ => isFalse (fun h => Json.noConfusion h)
  | .bool _, .str _ => isFalse (fun h => Json.noConfusion h)
  | .bool _, .arr _ => isFalse (fun h => Json.noConfusion h)
  | .bool _, .obj _ => isFalse (fun h => Json.noConfusion h)
  | .num _, .null => isFalse (fun h => Json.noConfusion h)
  | .num _, .bool _ => isFalse (fun h => Json.noConfusion h)
  | .num a, .num b =>
    if h : a = b then isTrue (by rw [h]) else
      isFalse (fun hh => h (Json.num.inj hh))
  | .num _, .str _ => isFalse (fun h => Json.noConfusion h)
  | .num _, .arr _ => isFalse (fun h => Json.noConfusion h)
  | .num _, .obj _ => isFalse (fun h => Json.noConfusion h)
  | .str _, .null => isFalse (fun h => Json.noConfusion h)
  | .str _, .bool _ => isFalse (fun h => Json.noConfusion h)
  | .str _, .num _ => isFalse (fun h => Json.noConfusion h)
  | .str a, .str b =>
    if h : a = b then isTrue (by rw [h]) else
      isFalse (fun hh => h (Json.str.inj hh))
  | .str _, .arr _ => isFalse (fun h => Json.noConfusion h)
  | .str _, .obj _ => isFalse (fun h => Json.noConfusion h)
  | .arr _, .null => isFalse (fun h => Json.noConfusion h)
  | .arr _, .bool _ => isFalse (fun h => Json.noConfusion h)
  | .arr _, .num _ => isFalse (fun h => Json.noConfusion h)
  | .arr _, .str _ => isFalse (fun h => Json.noConfusion h)
  | .arr a, .arr b =>
    match jsonDecEqList a b with
    | isTrue h => isTrue (by rw [h])
    | isFalse h => isFalse (fun hh => h (Json.arr.inj hh))
  | .arr _, .obj _ => isFalse (fun h => Json.noConfusion h)
  | .obj _, .null => isFalse (fun h => Json.noConfusion h)
  | .obj _, .bool _ => isFalse (fun h => Json.noConfusion h)
  | .obj _, .num _ => isFalse (fun h => Json.noConfusion h)
  | .obj _, .str _ => isFalse (fun h => Json.noConfusion h)
  | .obj _, .arr _ => isFalse (fun h => Json.noConfusion h)
  | .obj a, .obj b =>
    match jsonDecEqObj a b with
    | isTrue h => isTrue (by rw [h])
    | isFalse h => isFalse (fun hh => h (Json.obj.inj hh))

/-- Decidable equality on JSON arrays. -/
def jsonDecEqList : (a b : List Json) → Decidable (a = b)
  | [], [] => isTrue rfl
  | [], _ :: _ => isFalse (fun h => List.noConfusion h)
  | _ :: _, [] => isFalse (fun h => List.noConfusion h)
  | x :: xs, y :: ys =>
    match jsonDecEq x y with
    | isTrue h1 =>
      match jsonDecEqList xs ys with
      | isTrue h2 => isTrue (by rw [h1, h2])
      | isFalse h2 => isFalse (fun h => h2 (List.cons.inj h).2)
    | isFalse h1 => isFalse (fun h => h1 (List.cons.inj h).1)

/-- Decidable equality on JSON object field lists. -/
def jsonDecEqObj : (a b : List (String × Json)) → Decidable (a = b)
  | [], [] => isTrue rfl
  | [], _ :: _ => isFalse (fun h => List.noConfusion h)
  | _ :: _, [] => isFalse (fun h => List.noConfusion h)
  | (k1, v1) :: xs, (k2, v2) :: ys =>
    if hk : k1 = k2 then
      match jsonDecEq v1 v2 with
      | isTrue h1 =>
        match jsonDecEqObj xs ys with
        | isTrue h2 => isTrue (by rw [hk, h1, h2])
        | isFalse h2 => isFalse (fun h => h2 (List.cons.inj h).2)
      | isFalse h1 =>
        isFalse (fun h => h1 (Prod.mk.inj (List.cons.inj h).1).2)
    else isFalse (fun h => hk (Prod.mk.inj (List.cons.inj h).1).1)

end

instance : DecidableEq Json := jsonDecEq

/-- True exactly on the JSON null value. -/
def Json.isNull : Json → Bool
  | .null => true
  | _ => false

/-- Modelled from the spec: the lowercased copy of a character used for
case-insensitive hex comparison and host normalization (ASCII letters
are mapped to lowercase, everything else kept). -/
def lowerChar (c : Char) : Char :=
  if c.toNat ≥ 65 ∧ c.toNat ≤ 90 then Char.ofNat (c.toNat + 32) else c

/-- Modelled from the spec: lowercased copy of a string; the spec asks
both sides of a hex comparison to be normalized to a lowercased copy. -/
def lowerStr (s : String) : String := ⟨s.data.map lowerChar⟩

/-- A parsed JSON-RPC request: id (string, integer or null), method and
params, per the data model of the spec. -/
structure RPCReq where
  id : Json
  method : String
  params : Json
deriving DecidableEq

/-- A JSON-RPC error object: code and message. -/
structure RPCErr where
  code : Int
  message : String
deriving DecidableEq

/-- A JSON-RPC response: the jsonrpc tag, the echoed id, and result or
error. -/
structure RPCRes where
  jsonrpc : String
  id : Json
  result : Option Json
  error : Option RPCErr
deriving DecidableEq

/-- One step of a structural path into params: a positional index into an
array-typed params or a named key into an object. -/
inductive PathSeg where
  | idx (i : Nat)
  | key (k : String)
deriving DecidableEq

/-- First binding of a key in an object field list. -/
def lookupField : List (String × Json) → String → Option Json
  | [], _ => none
  | (k, v) :: rest, s => if k = s then some v else lookupField rest s

/-- Modelled from the spec: dereference a structural path inside a JSON
value; positional steps index arrays, named steps dereference object
keys; any shape mismatch yields an absent path. -/
def lookupPath : Json → List PathSeg → Option Json
  | j, [] => some j
  | j, seg :: rest =>
    match seg, j with
    | .idx i, .arr xs =>
      match xs.get? i with
      | some x => lookupPath x rest
      | none => none
    | .key k, .obj fs =>
      match lookupField fs k with
      | some x => lookupPath x rest
      | none => none
    | _, _ => none

/-- One structural matcher of an override rule: a path into params, the
expected value, and whether the field is hex-typed (compared
case-insensitively as a string). -/
structure Matcher where
  path : List PathSeg
  value : Json
  hexTyped : Bool
deriving DecidableEq

/-- Modelled from the spec: matcher comparison; hex-typed fields compare
as lowercased strings, everything else by exact JSON-value equality. -/
def matchValue (hexTyped : Bool) (actual expected : Json) : Bool :=
  if hexTyped then
    match actual, expected with
    | .str a, .str b => lowerStr a == lowerStr b
    | a, b => jsonBeq a b
  else jsonBeq actual expected

/-- Modelled from the spec: a matcher holds when its path is present in
params and the value there compares equal; an absent path never
matches. -/
def matcherHolds (params : Json) (m : Matcher) : Bool :=
  match lookupPath params m.path with
  | some v => matchValue m.hexTyped v m.value
  | none => false

/-- A declarative override rule: exact method, structural matchers, and
the literal result template. -/
structure OverrideRule where
  method : String
  matchers : List Matcher
  response : Json
deriving DecidableEq

/-- Modelled from the spec: a rule matches a request iff the method is
equal (exact, case-sensitive) and every matcher holds on params. -/
def ruleMatches (r : OverrideRule) (q : RPCReq) : Bool :=
  q.method == r.method && r.matchers.all (matcherHolds q.params)

/-- Modelled from the spec: rules are consulted in config order and the
first match wins. -/
def findOverride (rules : List OverrideRule) (q : RPCReq) : Option OverrideRule :=
  rules.find? (fun r => ruleMatches r q)

/-- Modelled from the spec: the synthesized override response carries the
jsonrpc tag, the request id, and the rule response template as result. -/
def overrideResponse (r : OverrideRule) (q : RPCReq) : RPCRes :=
  { jsonrpc := "2.0", id := q.id, result := some r.response, error := none }

/-- A method-to-group mapping with an optional default group. -/
structure MethodMapping where
  mappings : List (String × String)
  defaultGroup : Option String
deriving DecidableEq

/-- Domain routing: per-domain method mappings plus the distinguished
default mapping used when the host matches none. -/
structure DomainRouting where
  domains : List (String × MethodMapping)
  defaultMapping : MethodMapping
deriving DecidableEq

/-- First binding of a key in an association list of strings. -/
def lookupAssoc {α : Type} : List (String × α) → String → Option α
  | [], _ => none
  | (k, v) :: rest, s => if k = s then some v else lookupAssoc rest s

/-- Modelled from the spec: select the MethodMapping by exact domain
match, else the default mapping. -/
def selectMapping (dr : DomainRouting) (host : String) : MethodMapping :=
  match lookupAssoc dr.domains host with
  | some mm => mm
  | none => dr.defaultMapping

/-- Modelled from the spec: resolve a (domain, method) pair to a backend
group name: domain mapping lookup, else its default group, else the
default mapping lookup, else its default group, else unresolved. -/
def resolve (dr : DomainRouting) (host method : String) : Option String :=
  let mm := selectMapping dr host
  match lookupAssoc mm.mappings method with
  | some g => some g
  | none =>
    match mm.defaultGroup with
    | some g => some g
    | none =>
      match lookupAssoc dr.defaultMapping.mappings method with
      | some g => some g
      | none => dr.defaultMapping.defaultGroup

/-- Modelled from the spec: the characters of a string before its first
comma (the first value of a comma-split). -/
def firstCommaSegment (s : String) : String :=
  ⟨s.data.takeWhile (fun c => c ≠ ',')⟩

/-- Modelled from the spec: the routing host is the lowercased first
comma-separated value of X-Forwarded-Host, falling back to the HTTP
Host header when that header is absent. -/
def extractHost (xfh : Option String) (hostHeader : String) : String :=
  match xfh with
  | some s => lowerStr (firstCommaSegment s)
  | none => lowerStr hostHeader

/-- Modelled from the spec: pick a backend of a group; the group cursor
(round-robin state) indexes into the member list. A missing or empty
group yields no backend. -/
def selectBackend (groups : List (String × List String)) (cursor : Nat)
    (g : String) : Option String :=
  match lookupAssoc groups g with
  | some bs => bs.get? (cursor % bs.length)
  | none => none

/-- The immutable configuration the routing core consults: override
rules in config order, the domain routing table, and the backend
groups. -/
structure Config where
  overrides : List OverrideRule
  routing : DomainRouting
  groups : List (String × List String)
deriving DecidableEq

/-- One upstream HTTP call: the backend it goes to and the sub-requests
in its (possibly nested batch) payload. -/
structure Upcall where
  backend : String
  payload : List RPCReq
deriving DecidableEq

/-- Number of upstream HTTP calls an upcall list sends to one backend. -/
def callsTo (upcalls : List Upcall) (b : String) : Nat :=
  (upcalls.filter (fun u => u.backend == b)).length

/-- How one sub-request is classified by the pipeline: answered by an
override rule, routed to a backend of a resolved group, resolved to a
group with no selectable backend, or unroutable. -/
inductive RouteClass where
  | overridden (r : OverrideRule)
  | toBackend (group backend : String)
  | noBackend (group : String)
  | noRoute
deriving DecidableEq

/-- Modelled from the spec: classification of one sub-request, override
engine first, then router, then backend selection in the group. -/
def classifyReq (cfg : Config) (host : String) (cursor : Nat)
    (q : RPCReq) : RouteClass :=
  match findOverride cfg.overrides q with
  | some r => .overridden r
  | none =>
    match resolve cfg.routing host q.method with
    | some g =>
      match selectBackend cfg.groups cursor g with
      | some b => .toBackend g b
      | none => .noBackend g
    | none => .noRoute

/-- Modelled from the spec: the response slot of one sub-request, given
its classification; upstream results are a function of the chosen
backend and the method, and every slot echoes the request id. -/
def subResponse (beh : String → String → Json) (q : RPCReq) :
    RouteClass → RPCRes
  | .overridden r => overrideResponse r q
  | .toBackend _ b =>
    { jsonrpc := "2.0", id := q.id, result := some (beh b q.method),
      error := none }
  | .noBackend _ =>
    { jsonrpc := "2.0", id := q.id, result := none,
      error := some ⟨-32011, "no backends available"⟩ }
  | .noRoute =>
    { jsonrpc := "2.0", id := q.id, result := none,
      error := some ⟨-32601, "method not found"⟩ }

/-- Outcome of a single (non-batch) request: the response object, the
upstream calls made, the group the router resolved (none when an
override hit short-circuited routing or no route exists), and the
group cursor after the dispatch. -/
structure SingleOutcome where
  response : RPCRes
  upcalls : List Upcall
  group : Option String
  nextCursor : Nat
deriving DecidableEq

/-- Modelled from the spec: the pipeline for a single request, override
engine before routing; a dispatch advances the round-robin cursor. -/
def handleSingle (cfg : Config) (beh : String → String → Json)
    (xfh : Option String) (hostHeader : String) (cursor : Nat)
    (q : RPCReq) : SingleOutcome :=
  let host := extractHost xfh hostHeader
  match classifyReq cfg host cursor q with
  | .overridden r => ⟨subResponse beh q (.overridden r), [], none, cursor⟩
  | .toBackend g b =>
    ⟨subResponse beh q (.toBackend g b), [⟨b, [q]⟩], some g, cursor + 1⟩
  | .noBackend g => ⟨subResponse beh q (.noBackend g), [], some g, cursor⟩
  | .noRoute => ⟨subResponse beh q .noRoute, [], none, cursor⟩

/-- Modelled from the spec: the duplicate-id scan of a batch; an id
participates only when non-null, and comparison is JSON-value
equality. -/
def dupNonNullIds : List Json → Bool
  | [] => false
  | i :: rest => (!(i.isNull) && rest.any (fun j => jsonBeq i j)) || dupNonNullIds rest

/-- Keys of a list in order of first occurrence, without repetitions. -/
def firstOccs : List String → List String
  | [] => []
  | k :: rest => k :: (firstOccs rest).filter (fun x => x ≠ k)

/-- Modelled from the spec: group identically-routed sub-requests so
each chosen backend receives a single nested batch, in order of first
occurrence. -/
def coalesce (l : List (String × RPCReq)) : List Upcall :=
  (firstOccs (l.map (·.1))).map
    (fun b => ⟨b, (l.filter (fun p => p.1 == b)).map (·.2)⟩)

/-- Result of a whole batch: a fatal whole-batch error, or the ordered
list of per-sub-request responses. -/
inductive BatchResult where
  | fatal (e : RPCErr)
  | ok (responses : List RPCRes)
deriving DecidableEq

/-- Outcome of a batch: its result and the upstream calls made. -/
structure BatchOutcome where
  result : BatchResult
  upcalls : List Upcall
deriving DecidableEq

/-- The backend a classification routes to, when it routes upstream. -/
def routedBackend : RouteClass → Option String
  | .toBackend _ b => some b
  | _ => none

/-- The pair fed to coalescing for one sub-request: its chosen backend
with the request itself, or nothing when no upstream call is due. -/
def routedPair (c : RouteClass) (q : RPCReq) : Option (String × RPCReq) :=
  match c with
  | .toBackend _ b => some (b, q)
  | _ => none

/-- Modelled from the spec: the backend-bound sub-requests of a batch,
each tagged with its chosen backend, in input order. -/
def batchPairs (cfg : Config) (host : String) (cursor : Nat)
    (batch : List RPCReq) : List (String × RPCReq) :=
  batch.filterMap (fun q => routedPair (classifyReq cfg host cursor q) q)

/-- Modelled from the spec: the response list of a batch, assembled in
input order; notifications (null id) produce no output entry. -/
def batchResponses (cfg : Config) (beh : String → String → Json)
    (host : String) (cursor : Nat) (batch : List RPCReq) : List RPCRes :=
  batch.filterMap (fun q =>
    if q.id.isNull then none
    else some (subResponse beh q (classifyReq cfg host cursor q)))

/-- Modelled from the spec: the batch orchestrator. Duplicate non-null
ids fail the whole batch with code -32600 before any dispatch;
otherwise sub-requests are classified, backend-bound ones are
coalesced per chosen backend, and responses are assembled in input
order, with notifications (null id) producing no output entry. -/
def handleBatch (cfg : Config) (beh : String → String → Json)
    (xfh : Option String) (hostHeader : String) (cursor : Nat)
    (batch : List RPCReq) : BatchOutcome :=
  if dupNonNullIds (batch.map (·.id)) then
    ⟨.fatal ⟨-32600, "duplicate id"⟩, []⟩
  else
    let host := extractHost xfh hostHeader
    ⟨.ok (batchResponses cfg beh host cursor batch),
     coalesce (batchPairs cfg host cursor batch)⟩

/-- The parts of an http.Request that printHeader reads: method, request
URI, protocol, host and the header map (a key with its values). -/
structure HttpRequest where
  method : String
  requestURI : String
  proto : String
  host : String
  header : List (String × List String)
deriving DecidableEq

/-- Embedding of printHeader from src/header_printer.go. The logger is
threaded explicitly: each log.Info call appends one line. The Go header
map iteration is taken in the list order of `header`; the values of a
key are joined by commas into the single line of that key. The request
is threaded through to expose that no statement writes to it. -/
def printHeader (direct : String) (r : HttpRequest) (logged : List String) :
    HttpRequest × List String :=
  let logged := logged ++ ["---- " ++ direct ++ " ----"]
  let logged := logged ++ [r.method ++ " " ++ r.requestURI ++ " " ++ r.proto]
  let logged := logged ++ ["Host: " ++ r.host]
  let logged := logged ++
    r.header.map (fun kv => kv.1 ++ ": " ++ String.intercalate "," kv.2)
  (r, logged)

/-- The eth_call hook override rule shape: matchers on the `to` and
`value` fields of the first positional parameter (the call object),
both hex-typed, with a literal response template. -/
def ethCallRule (hto hv : String) (resp : Json) : OverrideRule :=
  { method := "eth_call",
    matchers :=
      [⟨[.idx 0, .key "to"], .str hto, true⟩,
       ⟨[.idx 0, .key "value"], .str hv, true⟩],
    response := resp }

/-- An eth_call request whose call object carries `to` and `value`
fields, followed by a block tag parameter. -/
def mkEthCallReq (idv : Json) (toAddr val : String) (tag : Json) : RPCReq :=
  { id := idv, method := "eth_call",
    params := .arr [.obj [("to", .str toAddr), ("value", .str val)], tag] }

/-- The backend behavior of the mock backend in the integration tests:
every upstream call yields the mock response. -/
def behMock : String → String → Json := fun _ _ => Json.str "mock_backend_response"

/-- The override rule of the eth_call_override test config. -/
def testOverrideRule : OverrideRule :=
  ethCallRule "0xaBcD123456789012345678901234567890123456" "0xaBcD1234"
    (Json.str "0x1000")

/-- The eth_call_override test config: one rule, one group, one backend. -/
def cfgEthCallOverride : Config :=
  ⟨[testOverrideRule], ⟨[], ⟨[("eth_call", "main")], none⟩⟩,
   [("main", ["main_backend"])]⟩

/-- The case-variant matching request of the eth_call_override test. -/
def reqOverrideHit : RPCReq :=
  mkEthCallReq (.str "1") "0xAbCd123456789012345678901234567890123456"
    "0xAbCd1234" (.str "latest")

/-- The different-address request of the eth_call_override test. -/
def reqOverrideMiss : RPCReq :=
  mkEthCallReq (.str "1") "0x1111111111111111111111111111111111111111"
    "0x0" (.str "latest")

/-- The domain1 mapping of the domain_routing test config. -/
def domain1Mapping : MethodMapping :=
  ⟨[("eth_blockNumber", "group2"), ("eth_chainId", "group2")], none⟩

/-- The default mapping of the domain_routing test config. -/
def defaultMappingTest : MethodMapping :=
  ⟨[("eth_blockNumber", "group1"), ("eth_chainId", "group1"),
    ("eth_call", "group1")], none⟩

/-- The domain_routing test config: domain1 remaps to group2 (backend2),
the default mapping sends everything to group1 (backend1). -/
def cfgDomainRouting : Config :=
  ⟨[], ⟨[("domain1.example.com", domain1Mapping)], defaultMappingTest⟩,
   [("group1", ["backend1"]), ("group2", ["backend2"])]⟩

/-- An eth_blockNumber request with id 1, as sent by the tests. -/
def reqBlockNumber : RPCReq := ⟨.str "1", "eth_blockNumber", .null⟩

/-- An eth_chainId request with id 2, as sent by the tests. -/
def reqChainId : RPCReq := ⟨.str "2", "eth_chainId", .null⟩

/-- A notification (null id) request, as in the notification tests. -/
def reqNotification : RPCReq := ⟨.null, "eth_chainId", .null⟩

/-- A second request that shares id 1 with reqBlockNumber. -/
def reqDupId : RPCReq := ⟨.str "1", "eth_chainId", .null⟩

/-- The mixed-batch test config: the eth_call override rule together
with the domain_routing tables, so one batch can contain an override
hit, a sub-request routed to group1 and sub-requests routed to
group2. -/
def cfgMixed : Config :=
  ⟨[testOverrideRule],
   ⟨[("domain1.example.com", domain1Mapping)], defaultMappingTest⟩,
   [("group1", ["backend1"]), ("group2", ["backend2"])]⟩

/-- A case-variant matching eth_call request with id 3, for use inside
a mixed batch. -/
def reqOverrideHitB : RPCReq :=
  mkEthCallReq (.str "3") "0xAbCd123456789012345678901234567890123456"
    "0xAbCd1234" (.str "latest")

/-- A non-matching eth_call request with id 4, routed upstream inside a
mixed batch. -/
def reqCallMissB : RPCReq :=
  mkEthCallReq (.str "4") "0x1111111111111111111111111111111111111111"
    "0x0" (.str "latest")

theorem jsonBeqList_eq (xs ys : List Json)
    (ih : ∀ x ∈ xs, ∀ b : Json, jsonBeq x b = true → x = b)
    (h : jsonBeqList xs ys = true) : xs = ys := by
  induction xs generalizing ys with
  | nil => cases ys with
    | nil => rfl
    | cons y ys => simp [jsonBeqList] at h
  | cons x xs ihl =>
    cases ys with
    | nil => simp [jsonBeqList] at h
    | cons y ys =>
      simp only [jsonBeqList, Bool.and_eq_true] at h
      have hx : x = y := ih x (by simp) y h.1
      have hxs : xs = ys :=
        ihl ys (fun a ha b hb => ih a (List.mem_cons_of_mem _ ha) b hb) h.2
      rw [hx, hxs]

theorem jsonBeqObj_eq (xs ys : List (String × Json))
    (ih : ∀ p ∈ xs, ∀ b : Json, jsonBeq p.2 b = true → p.2 = b)
    (h : jsonBeqObj xs ys = true) : xs = ys := by
  induction xs generalizing ys with
  | nil => cases ys with
    | nil => rfl
    | cons y ys => simp [jsonBeqObj] at h
  | cons x xs ihl =>
    cases ys with
    | nil =>
      rcases x with ⟨k, v⟩
      simp [jsonBeqObj] at h
    | cons y ys =>
      rcases x with ⟨k1, v1⟩
      rcases y with ⟨k2, v2⟩
      simp only [jsonBeqObj, Bool.and_eq_true, beq_iff_eq] at h
      have hv : v1 = v2 := ih (k1, v1) (by simp) v2 h.1.2
      have hxs : xs = ys :=
        ihl ys (fun a ha b hb => ih a (List.mem_cons_of_mem _ ha) b hb) h.2
      rw [h.1.1, hv, hxs]

theorem eq_of_jsonBeq : ∀ (a b : Json), jsonBeq a b = true → a = b := by
  have H : ∀ n (a b : Json), sizeOf a ≤ n → jsonBeq a b = true → a = b := by
    intro n
    induction n with
    | zero =>
      intro a b hsz
      cases a <;> simp at hsz
    | succ n ih =>
      intro a b hsz hbeq
      cases a <;> cases b <;> simp only [jsonBeq] at hbeq <;> try exact Bool.noConfusion hbeq
      case null.null => rfl
      case bool.bool a b => rw [eq_of_beq hbeq]
      case num.num a b => rw [eq_of_beq hbeq]
      case str.str a b => rw [eq_of_beq hbeq]
      case arr.arr xs ys =>
        have hmem : ∀ x ∈ xs, ∀ b : Json, jsonBeq x b = true → x = b := by
          intro x hx b hb
          have h1 : sizeOf x < sizeOf xs := List.sizeOf_lt_of_mem hx
          have h2 : sizeOf xs < sizeOf (Json.arr xs) := by simp; try omega
          exact ih x b (by omega) hb
        rw [jsonBeqList_eq xs ys hmem hbeq]
      case obj.obj xs ys =>
        have hmem : ∀ p ∈ xs, ∀ b : Json, jsonBeq p.2 b = true → p.2 = b := by
          intro p hp b hb
          have h1 : sizeOf p < sizeOf xs := List.sizeOf_lt_of_mem hp
          have h2 : sizeOf p.2 < sizeOf p := by
            rcases p with ⟨k, v⟩
            simp
            try omega
          have h3 : sizeOf xs < sizeOf (Json.obj xs) := by simp; try omega
          exact ih p.2 b (by omega) hb
        rw [jsonBeqObj_eq xs ys hmem hbeq]
  exact fun a b => H (sizeOf a) a b (Nat.le_refl _)

theorem jsonBeqList_refl (xs : List Json)
    (ih : ∀ x ∈ xs, jsonBeq x x = true) : jsonBeqList xs xs = true := by
  induction xs with
  | nil => rfl
  | cons x rest ihl =>
    simp only [jsonBeqList, Bool.and_eq_true]
    exact ⟨ih x (by simp), ihl (fun a ha => ih a (List.mem_cons_of_mem _ ha))⟩

theorem jsonBeqObj_refl (xs : List (String × Json))
    (ih : ∀ p ∈ xs, jsonBeq p.2 p.2 = true) : jsonBeqObj xs xs = true := by
  induction xs with
  | nil => rfl
  | cons x rest ihl =>
    rcases x with ⟨k, v⟩
    simp only [jsonBeqObj, Bool.and_eq_true]
    exact ⟨⟨by simp, ih (k, v) (by simp)⟩,
      ihl (fun a ha => ih a (List.mem_cons_of_mem _ ha))⟩

theorem jsonBeq_refl : ∀ a : Json, jsonBeq a a = true := by
  have H : ∀ n (a : Json), sizeOf a ≤ n → jsonBeq a a = true := by
    intro n
    induction n with
    | zero =>
      intro a hsz
      cases a <;> simp at hsz
    | succ n ih =>
      intro a hsz
      cases a with
      | null => rfl
      | bool b => simp [jsonBeq]
      | num m => simp [jsonBeq]
      | str s => simp [jsonBeq]
      | arr xs =>
        have hxs : sizeOf xs < sizeOf (Json.arr xs) := by simp; try omega
        simp only [jsonBeq]
        refine jsonBeqList_refl xs (fun x hx => ih x ?_)
        have h1 : sizeOf x < sizeOf xs := List.sizeOf_lt_of_mem hx
        omega
      | obj xs =>
        have hxs : sizeOf xs < sizeOf (Json.obj xs) := by simp; try omega
        simp only [jsonBeq]
        refine jsonBeqObj_refl xs (fun p hp => ih p.2 ?_)
        have h1 : sizeOf p < sizeOf xs := List.sizeOf_lt_of_mem hp
        have h2 : sizeOf p.2 < sizeOf p := by
          rcases p with ⟨k, v⟩
          simp
          try omega
        omega
  exact fun a => H (sizeOf a) a (Nat.le_refl _)


theorem subResponse_id (beh : String → String → Json) (q : RPCReq)
    (c : RouteClass) : (subResponse beh q c).id = q.id := by
  cases c <;> rfl

/-- C10: printHeader never mutates its request argument: the request
component of the outcome is the input request unchanged (so method,
URL, protocol, host and header map are all unchanged), and the only
effect is the emitted log: the banner line, the request line, the Host
line, then exactly one line per header key with the values of that key
joined by commas. -/
theorem printHeader_reads_only (direct : String) (r : HttpRequest)
    (logged : List String) :
    (printHeader direct r logged).1 = r ∧
    (printHeader direct r logged).2 =
      logged ++ ["---- " ++ direct ++ " ----"] ++
        [r.method ++ " " ++ r.requestURI ++ " " ++ r.proto] ++
        ["Host: " ++ r.host] ++
        r.header.map (fun kv => kv.1 ++ ": " ++ String.intercalate "," kv.2) ∧
    (printHeader direct r logged).2.length =
      logged.length + 3 + r.header.length := by
  refine ⟨rfl, ?_, ?_⟩
  · simp [printHeader]
  · simp [printHeader]
    omega

/-- C1: when an override rule is the one the engine finds for a request
(first match in config order), the request matches it, the response is
the synthesized template carrying the jsonrpc tag, the request id and
the rule response, and no upstream call is made, for every backend
behavior, backend pool and cursor (so regardless of backend
availability every backend request count stays zero). -/
theorem override_hit_short_circuits (cfg : Config)
    (beh : String → String → Json) (xfh : Option String)
    (hostHeader : String) (cursor : Nat) (q : RPCReq) (R : OverrideRule)
    (h : findOverride cfg.overrides q = some R) :
    ruleMatches R q = true ∧
    (handleSingle cfg beh xfh hostHeader cursor q).response =
      { jsonrpc := "2.0", id := q.id, result := some R.response,
        error := none } ∧
    (handleSingle cfg beh xfh hostHeader cursor q).upcalls = [] ∧
    ∀ b, callsTo (handleSingle cfg beh xfh hostHeader cursor q).upcalls b = 0 := by
  have hfind : List.find? (fun r => ruleMatches r q) cfg.overrides = some R := by
    simpa [findOverride] using h
  have hm0 := @List.find?_some OverrideRule (fun r => ruleMatches r q) R
    cfg.overrides hfind
  have hm : ruleMatches R q = true := by simpa using hm0
  have hclass : classifyReq cfg (extractHost xfh hostHeader) cursor q =
      .overridden R := by
    simp [classifyReq, h]
  refine ⟨hm, ?_, ?_, ?_⟩
  · simp [handleSingle, hclass, subResponse, overrideResponse]
  · simp [handleSingle, hclass]
  · intro b
    simp [handleSingle, hclass, callsTo]

/-- C2: override matching on the eth_call hook compares the `to` and
`value` fields case-insensitively as hex strings: a request matches
the rule exactly when the lowercased copies of its `to` and `value`
fields equal the lowercased copies of the matcher values, so two
requests differing only in letter case match identically, and a field
differing from the matcher value only in case matches exactly when the
matcher value itself does. -/
theorem ethCall_hex_case_insensitive (hto hv : String) (resp : Json)
    (idv : Json) (toAddr val : String) (tag : Json) :
    ruleMatches (ethCallRule hto hv resp) (mkEthCallReq idv toAddr val tag) =
      (lowerStr toAddr == lowerStr hto && lowerStr val == lowerStr hv) := by
  simp [ruleMatches, ethCallRule, mkEthCallReq, matcherHolds, lookupPath,
    lookupField, matchValue]


/-- C3: a rule matches only when every matcher is satisfied: if the
method is equal but some matcher fails on params, the rule does not
match, the request is forwarded upstream, the chosen backend receives
the call exactly once, and the response returned carries the request id
and the backend result. -/
theorem override_miss_forwards (cfg : Config)
    (beh : String → String → Json) (xfh : Option String)
    (hostHeader : String) (cursor : Nat) (r : OverrideRule) (q : RPCReq)
    (g b : String) (m : Matcher)
    (hrules : cfg.overrides = [r])
    (_hmethod : q.method = r.method)
    (hm : m ∈ r.matchers)
    (hmiss : matcherHolds q.params m = false)
    (hroute : resolve cfg.routing (extractHost xfh hostHeader) q.method = some g)
    (hsel : selectBackend cfg.groups cursor g = some b) :
    ruleMatches r q = false ∧
    (handleSingle cfg beh xfh hostHeader cursor q).upcalls = [⟨b, [q]⟩] ∧
    callsTo (handleSingle cfg beh xfh hostHeader cursor q).upcalls b = 1 ∧
    (handleSingle cfg beh xfh hostHeader cursor q).response =
      { jsonrpc := "2.0", id := q.id, result := some (beh b q.method),
        error := none } := by
  have hrm : ruleMatches r q = false := by
    rcases hall : r.matchers.all (matcherHolds q.params) with _ | _
    · simp [ruleMatches, hall]
    · exact absurd (List.all_eq_true.mp hall m hm) (by simp [hmiss])
  have hfind : findOverride cfg.overrides q = none := by
    simp [findOverride, hrules, List.find?, hrm]
  have hclass : classifyReq cfg (extractHost xfh hostHeader) cursor q =
      .toBackend g b := by
    simp [classifyReq, hfind, hroute, hsel]
  refine ⟨hrm, ?_, ?_, ?_⟩
  · simp [handleSingle, hclass]
  · simp [handleSingle, hclass, callsTo]
  · simp [handleSingle, hclass, subResponse]

/-- C4: when the host extracted from X-Forwarded-Host exactly matches a
configured domain, routing uses that domain mapping instead of the
default one: with no override hit, a method the domain mapping sends to
group g whose selected backend is b reaches b exactly once, and every
other backend receives zero requests. -/
theorem domain_mapping_overrides_default (cfg : Config)
    (beh : String → String → Json) (xfh : Option String)
    (hostHeader : String) (cursor : Nat) (q : RPCReq)
    (mm : MethodMapping) (g b : String)
    (hover : findOverride cfg.overrides q = none)
    (hdom : lookupAssoc cfg.routing.domains (extractHost xfh hostHeader) = some mm)
    (hmap : lookupAssoc mm.mappings q.method = some g)
    (hsel : selectBackend cfg.groups cursor g = some b) :
    (handleSingle cfg beh xfh hostHeader cursor q).group = some g ∧
    (handleSingle cfg beh xfh hostHeader cursor q).upcalls = [⟨b, [q]⟩] ∧
    callsTo (handleSingle cfg beh xfh hostHeader cursor q).upcalls b = 1 ∧
    ∀ b2, b2 ≠ b →
      callsTo (handleSingle cfg beh xfh hostHeader cursor q).upcalls b2 = 0 := by
  have hres : resolve cfg.routing (extractHost xfh hostHeader) q.method = some g := by
    simp [resolve, selectMapping, hdom, hmap]
  have hclass : classifyReq cfg (extractHost xfh hostHeader) cursor q =
      .toBackend g b := by
    simp [classifyReq, hover, hres, hsel]
  refine ⟨?_, ?_, ?_, ?_⟩
  · simp [handleSingle, hclass]
  · simp [handleSingle, hclass]
  · simp [handleSingle, hclass, callsTo]
  · intro b2 hne
    have hbb : (b == b2) = false := by
      simp only [beq_eq_false_iff_ne, ne_eq]
      exact fun hbad => hne hbad.symm
    simp [handleSingle, hclass, callsTo, List.filter, hbb]

/-- C5: a host that matches no configured domain falls back to the
default mapping: with no override hit, a method the default mapping
sends to group g whose selected backend is b reaches b exactly once,
and every other backend receives zero requests. -/
theorem unknown_domain_falls_back (cfg : Config)
    (beh : String → String → Json) (xfh : Option String)
    (hostHeader : String) (cursor : Nat) (q : RPCReq) (g b : String)
    (hover : findOverride cfg.overrides q = none)
    (hdom : lookupAssoc cfg.routing.domains (extractHost xfh hostHeader) = none)
    (hmap : lookupAssoc cfg.routing.defaultMapping.mappings q.method = some g)
    (hsel : selectBackend cfg.groups cursor g = some b) :
    (handleSingle cfg beh xfh hostHeader cursor q).group = some g ∧
    (handleSingle cfg beh xfh hostHeader cursor q).upcalls = [⟨b, [q]⟩] ∧
    callsTo (handleSingle cfg beh xfh hostHeader cursor q).upcalls b = 1 ∧
    ∀ b2, b2 ≠ b →
      callsTo (handleSingle cfg beh xfh hostHeader cursor q).upcalls b2 = 0 := by
  have hres : resolve cfg.routing (extractHost xfh hostHeader) q.method = some g := by
    simp [resolve, selectMapping, hdom, hmap]
  have hclass : classifyReq cfg (extractHost xfh hostHeader) cursor q =
      .toBackend g b := by
    simp [classifyReq, hover, hres, hsel]
  refine ⟨?_, ?_, ?_, ?_⟩
  · simp [handleSingle, hclass]
  · simp [handleSingle, hclass]
  · simp [handleSingle, hclass, callsTo]
  · intro b2 hne
    have hbb : (b == b2) = false := by
      simp only [beq_eq_false_iff_ne, ne_eq]
      exact fun hbad => hne hbad.symm
    simp [handleSingle, hclass, callsTo, List.filter, hbb]

/-- C9: routing determinism: the group the pipeline resolves for a
request depends only on the request and the immutable tables, not on
the mutable cursor; in particular two consecutive invocations (the
second one starting from the cursor the first one left behind) resolve
the same group. -/
theorem resolve_deterministic (cfg : Config)
    (beh : String → String → Json) (xfh : Option String)
    (hostHeader : String) (q : RPCReq) :
    (∀ c1 c2 : Nat,
      (handleSingle cfg beh xfh hostHeader c1 q).group =
        (handleSingle cfg beh xfh hostHeader c2 q).group) ∧
    (∀ c : Nat,
      (handleSingle cfg beh xfh hostHeader
          (handleSingle cfg beh xfh hostHeader c q).nextCursor q).group =
        (handleSingle cfg beh xfh hostHeader c q).group) := by
  have key : ∀ c : Nat, (handleSingle cfg beh xfh hostHeader c q).group =
      (match findOverride cfg.overrides q with
       | some _ => none
       | none => resolve cfg.routing (extractHost xfh hostHeader) q.method) := by
    intro c
    rcases hf : findOverride cfg.overrides q with _ | r
    · rcases hr : resolve cfg.routing (extractHost xfh hostHeader) q.method with _ | g
      · simp [handleSingle, classifyReq, hf, hr]
      · rcases hs : selectBackend cfg.groups c g with _ | b
        · simp [handleSingle, classifyReq, hf, hr, hs]
        · simp [handleSingle, classifyReq, hf, hr, hs]
    · simp [handleSingle, classifyReq, hf]
  exact ⟨fun c1 c2 => (key c1).trans (key c2).symm,
    fun c => (key _).trans (key c).symm⟩

theorem jsonBeq_iff (a b : Json) : jsonBeq a b = true ↔ a = b :=
  ⟨eq_of_jsonBeq a b, fun h => h ▸ jsonBeq_refl a⟩


theorem some_beq_some (a b : String) :
    ((some a == some b : Bool)) = (a == b) := rfl

theorem none_beq_some (b : String) :
    ((none == some b : Bool)) = false := rfl

theorem firstOccs_nodup : ∀ (l : List String), (firstOccs l).Nodup := by
  intro l
  induction l with
  | nil => exact List.nodup_nil
  | cons k rest ih =>
    simp only [firstOccs]
    rw [List.nodup_cons]
    constructor
    · intro hmem
      have hne := (List.mem_filter.mp hmem).2
      simp at hne
    · exact List.Nodup.filter _ ih

theorem mem_firstOccs (b : String) :
    ∀ (l : List String), b ∈ firstOccs l ↔ b ∈ l := by
  intro l
  induction l with
  | nil => simp [firstOccs]
  | cons k rest ih =>
    simp only [firstOccs, List.mem_cons]
    constructor
    · rintro (rfl | hmem)
      · exact Or.inl rfl
      · exact Or.inr (ih.mp (List.mem_filter.mp hmem).1)
    · rintro (rfl | hmem)
      · exact Or.inl rfl
      · rcases eq_or_ne b k with rfl | hne
        · exact Or.inl rfl
        · exact Or.inr (List.mem_filter.mpr ⟨ih.mpr hmem, by simp [hne]⟩)

theorem filter_backend_of_keys (payload : String → List RPCReq) (b : String) :
    ∀ (keys : List String), keys.Nodup →
      ((keys.map (fun k => (⟨k, payload k⟩ : Upcall))).filter
        (fun u => u.backend == b)) =
        if b ∈ keys then [⟨b, payload b⟩] else [] := by
  intro keys
  induction keys with
  | nil => intro _; rfl
  | cons k rest ih =>
    intro hnd
    rw [List.nodup_cons] at hnd
    simp only [List.map_cons, List.filter_cons]
    by_cases hkb : k = b
    · rw [if_pos (by simp [hkb])]
      have hz : ((rest.map (fun k2 => (⟨k2, payload k2⟩ : Upcall))).filter
          (fun u => u.backend == b)) = [] := by
        refine List.filter_eq_nil_iff.mpr ?_
        intro u hu
        rcases List.mem_map.mp hu with ⟨k2, hk2, rfl⟩
        intro hbeq
        have hk2b : k2 = b := by simpa using hbeq
        exact hnd.1 ((hk2b.trans hkb.symm) ▸ hk2)
      rw [hz, if_pos (by simp [hkb])]
      rw [hkb]
    · rw [if_neg (by simp [hkb]), ih hnd.2]
      by_cases hmem : b ∈ rest
      · rw [if_pos hmem, if_pos (List.mem_cons_of_mem _ hmem)]
      · rw [if_neg hmem,
          if_neg (fun hh =>
            (List.mem_cons.mp hh).elim (fun hbk => hkb hbk.symm) hmem)]

theorem coalesce_calls (l : List (String × RPCReq)) (b : String) :
    (coalesce l).filter (fun u => u.backend == b) =
      if b ∈ l.map (·.1) then
        [⟨b, (l.filter (fun p => p.1 == b)).map (·.2)⟩]
      else [] := by
  have h := filter_backend_of_keys
    (fun k => (l.filter (fun p => p.1 == k)).map (·.2)) b
    (firstOccs (l.map (·.1))) (firstOccs_nodup _)
  simp only [coalesce]
  rw [h]
  by_cases hmem : b ∈ l.map (·.1)
  · rw [if_pos ((mem_firstOccs b _).mpr hmem), if_pos hmem]
  · rw [if_neg (fun hh => hmem ((mem_firstOccs b _).mp hh)), if_neg hmem]

theorem batchPairs_filter (cfg : Config) (host : String) (cursor : Nat)
    (b : String) :
    ∀ (l : List RPCReq),
      (batchPairs cfg host cursor l).filter (fun p => p.1 == b) =
        (l.filter (fun q =>
          routedBackend (classifyReq cfg host cursor q) == some b)).map
          (fun q => (b, q)) := by
  intro l
  induction l with
  | nil => rfl
  | cons q rest ih =>
    cases hc : classifyReq cfg host cursor q with
    | overridden r =>
      have h1 : batchPairs cfg host cursor (q :: rest) =
          batchPairs cfg host cursor rest := by
        simp only [batchPairs, List.filterMap_cons, hc, routedPair]
      have h2 : (q :: rest).filter (fun q2 =>
          routedBackend (classifyReq cfg host cursor q2) == some b) =
          rest.filter (fun q2 =>
            routedBackend (classifyReq cfg host cursor q2) == some b) := by
        rw [List.filter_cons, if_neg (by simp [hc, routedBackend])]
      rw [h1, h2]
      exact ih
    | toBackend g b2 =>
      have h1 : batchPairs cfg host cursor (q :: rest) =
          (b2, q) :: batchPairs cfg host cursor rest := by
        simp only [batchPairs, List.filterMap_cons, hc, routedPair]
      have hcond : (routedBackend (classifyReq cfg host cursor q) ==
          some b) = (b2 == b) := by
        rw [hc]
        rfl
      rw [h1, List.filter_cons, List.filter_cons, hcond]
      by_cases hb : b2 = b
      · subst hb
        rw [if_pos (by simp), if_pos (by simp), List.map_cons, ih]
      · rw [if_neg (by simp [hb]), if_neg (by simp [hb])]
        exact ih
    | noBackend g =>
      have h1 : batchPairs cfg host cursor (q :: rest) =
          batchPairs cfg host cursor rest := by
        simp only [batchPairs, List.filterMap_cons, hc, routedPair]
      have h2 : (q :: rest).filter (fun q2 =>
          routedBackend (classifyReq cfg host cursor q2) == some b) =
          rest.filter (fun q2 =>
            routedBackend (classifyReq cfg host cursor q2) == some b) := by
        rw [List.filter_cons, if_neg (by simp [hc, routedBackend])]
      rw [h1, h2]
      exact ih
    | noRoute =>
      have h1 : batchPairs cfg host cursor (q :: rest) =
          batchPairs cfg host cursor rest := by
        simp only [batchPairs, List.filterMap_cons, hc, routedPair]
      have h2 : (q :: rest).filter (fun q2 =>
          routedBackend (classifyReq cfg host cursor q2) == some b) =
          rest.filter (fun q2 =>
            routedBackend (classifyReq cfg host cursor q2) == some b) := by
        rw [List.filter_cons, if_neg (by simp [hc, routedBackend])]
      rw [h1, h2]
      exact ih

/-- C6: batch coalescing: in any batch (mixed batches included: override
hits and sub-requests routed to other backends may be present), when
the k sub-requests routed to chosen backend b number at least one, the
upstream calls to b are exactly one HTTP call whose payload is exactly
those k sub-requests in input order, not k separate calls. -/
theorem batch_coalescing (cfg : Config) (beh : String → String → Json)
    (xfh : Option String) (hostHeader : String) (cursor : Nat)
    (batch : List RPCReq) (b : String)
    (hnodup : dupNonNullIds (batch.map (·.id)) = false)
    (hne : batch.filter (fun q =>
      routedBackend (classifyReq cfg (extractHost xfh hostHeader) cursor q) ==
        some b) ≠ []) :
    (handleBatch cfg beh xfh hostHeader cursor batch).upcalls.filter
        (fun u => u.backend == b) =
      [⟨b, batch.filter (fun q =>
        routedBackend (classifyReq cfg (extractHost xfh hostHeader) cursor q) ==
          some b)⟩] ∧
    callsTo (handleBatch cfg beh xfh hostHeader cursor batch).upcalls b = 1 := by
  have hup : (handleBatch cfg beh xfh hostHeader cursor batch).upcalls =
      coalesce (batchPairs cfg (extractHost xfh hostHeader) cursor batch) := by
    simp only [handleBatch, hnodup, Bool.false_eq_true, if_false]
  have hpf := batchPairs_filter cfg (extractHost xfh hostHeader) cursor b batch
  have hfilterne : (batchPairs cfg (extractHost xfh hostHeader) cursor
      batch).filter (fun p => p.1 == b) ≠ [] := by
    rw [hpf]
    simpa using hne
  have hmemb : b ∈ (batchPairs cfg (extractHost xfh hostHeader) cursor
      batch).map (·.1) := by
    rcases hx : (batchPairs cfg (extractHost xfh hostHeader) cursor
        batch).filter (fun p => p.1 == b) with _ | ⟨p, rest⟩
    · exact absurd hx hfilterne
    · have hp : p ∈ (batchPairs cfg (extractHost xfh hostHeader) cursor
          batch).filter (fun p => p.1 == b) := by
        rw [hx]; simp
      have hp2 := List.mem_filter.mp hp
      exact List.mem_map.mpr ⟨p, hp2.1, by simpa using hp2.2⟩
  have hcal := coalesce_calls
    (batchPairs cfg (extractHost xfh hostHeader) cursor batch) b
  rw [if_pos hmemb] at hcal
  have hfilter : (handleBatch cfg beh xfh hostHeader cursor
      batch).upcalls.filter (fun u => u.backend == b) =
      [⟨b, batch.filter (fun q =>
        routedBackend (classifyReq cfg (extractHost xfh hostHeader) cursor q) ==
          some b)⟩] := by
    rw [hup, hcal, hpf]
    simp
  exact ⟨hfilter, by simp [callsTo, hfilter]⟩

theorem batchResponses_ids (cfg : Config) (beh : String → String → Json)
    (host : String) (cursor : Nat) :
    ∀ (l : List RPCReq),
      (batchResponses cfg beh host cursor l).map (·.id) =
        (l.filter (fun q => !(q.id.isNull))).map (·.id) := by
  intro l
  induction l with
  | nil => rfl
  | cons q rest ih =>
    simp only [batchResponses] at ih ⊢
    rcases hq : q.id.isNull with _ | _
    · simp only [List.filterMap_cons, hq, if_false, Bool.false_eq_true,
        List.filter_cons, Bool.not_false, if_true, List.map_cons,
        subResponse_id, ih]
    · simp only [List.filterMap_cons, hq, if_true, List.filter_cons,
        Bool.not_true, List.map_cons, ih]
      simp

theorem dupNonNullIds_eq_false_iff (ids : List Json) :
    dupNonNullIds ids = false ↔
      (ids.filter (fun i => !(i.isNull))).Nodup := by
  induction ids with
  | nil => simp [dupNonNullIds]
  | cons i rest ih =>
    rcases hn : i.isNull with _ | _
    · -- i is not null
      have hany : rest.any (fun j => jsonBeq i j) = true ↔ i ∈ rest := by
        simp only [List.any_eq_true, jsonBeq_iff]
        constructor
        · rintro ⟨x, hx, rfl⟩; exact hx
        · intro hx; exact ⟨i, hx, rfl⟩
      have hfiltmem : i ∈ rest.filter (fun x => !(x.isNull)) ↔ i ∈ rest := by
        simp [List.mem_filter, hn]
      simp only [dupNonNullIds, hn, Bool.not_false, Bool.true_and,
        Bool.or_eq_false_iff, List.filter_cons]
      rw [if_pos (by simp [hn])]
      rw [List.nodup_cons]
      constructor
      · rintro ⟨h1, h2⟩
        refine ⟨fun hmem => ?_, ih.mp h2⟩
        rw [hfiltmem] at hmem
        rw [hany.mpr hmem] at h1
        exact Bool.noConfusion h1
      · rintro ⟨h1, h2⟩
        refine ⟨?_, ih.mpr h2⟩
        rcases ha : rest.any (fun j => jsonBeq i j) with _ | _
        · rfl
        · exact absurd (hfiltmem.mpr (hany.mp ha)) h1
    · -- i is null: exempt from the check
      simp only [dupNonNullIds, hn, Bool.not_true, Bool.false_and,
        Bool.false_or, List.filter_cons]
      rw [if_neg (by simp [hn])]
      exact ih

theorem countP_jsonBeq_eq_one (a : Json) :
    ∀ (l : List Json), l.Nodup → a ∈ l →
      l.countP (fun i => jsonBeq i a) = 1 := by
  intro l
  induction l with
  | nil => intro _ h; simp at h
  | cons x rest ih =>
    intro hnd hmem
    rw [List.nodup_cons] at hnd
    rcases List.mem_cons.mp hmem with rfl | hmem2
    · rw [List.countP_cons_of_pos _ _ (by simp [jsonBeq_refl])]
      have hz : rest.countP (fun i => jsonBeq i a) = 0 :=
        List.countP_eq_zero.mpr (fun j hj hbeq =>
          hnd.1 (eq_of_jsonBeq j a hbeq ▸ hj))
      rw [hz]
    · have hxa : x ≠ a := fun hx => hnd.1 (hx ▸ hmem2)
      rw [List.countP_cons_of_neg _ _ (by simp [jsonBeq_iff, hxa]),
        ih hnd.2 hmem2]

/-- C7: id preservation: when the batch passes the duplicate-id check,
the orchestrator succeeds, the output response ids are, in order,
exactly the ids of the non-notification sub-requests, no null-id
placeholder appears in the output, and every sub-request with non-null
id has exactly one response object carrying its id (JSON-value
equality). -/
theorem batch_id_preservation (cfg : Config) (beh : String → String → Json)
    (xfh : Option String) (hostHeader : String) (cursor : Nat)
    (batch : List RPCReq)
    (hnodup : dupNonNullIds (batch.map (·.id)) = false) :
    (handleBatch cfg beh xfh hostHeader cursor batch).result =
      .ok (batchResponses cfg beh (extractHost xfh hostHeader) cursor batch) ∧
    (batchResponses cfg beh (extractHost xfh hostHeader) cursor batch).map (·.id) =
      (batch.filter (fun q => !(q.id.isNull))).map (·.id) ∧
    (∀ r ∈ batchResponses cfg beh (extractHost xfh hostHeader) cursor batch,
      r.id.isNull = false) ∧
    ∀ q ∈ batch, q.id.isNull = false →
      (batchResponses cfg beh (extractHost xfh hostHeader) cursor batch).countP
        (fun r => jsonBeq r.id q.id) = 1 := by
  have hids := batchResponses_ids cfg beh (extractHost xfh hostHeader) cursor batch
  have hswap : (batch.filter (fun q => !(q.id.isNull))).map (·.id) =
      (batch.map (·.id)).filter (fun i => !(i.isNull)) := by
    rw [List.filter_map]
    rfl
  have hnd : ((batch.map (·.id)).filter (fun i => !(i.isNull))).Nodup :=
    (dupNonNullIds_eq_false_iff _).mp hnodup
  refine ⟨by simp [handleBatch, hnodup], hids, ?_, ?_⟩
  · intro r hr
    have hmem : r.id ∈ (batchResponses cfg beh (extractHost xfh hostHeader)
        cursor batch).map (·.id) := List.mem_map_of_mem _ hr
    rw [hids, hswap] at hmem
    have h2 := (List.mem_filter.mp hmem).2
    rcases hri : r.id.isNull with _ | _
    · rfl
    · rw [hri] at h2
      exact Bool.noConfusion h2
  · intro q hq hqn
    have hcp := List.countP_map (fun i => jsonBeq i q.id)
      (fun r : RPCRes => r.id)
      (batchResponses cfg beh (extractHost xfh hostHeader) cursor batch)
    rw [hids, hswap] at hcp
    have hone : ((batch.map (·.id)).filter (fun i => !(i.isNull))).countP
        (fun i => jsonBeq i q.id) = 1 :=
      countP_jsonBeq_eq_one q.id _ hnd
        (List.mem_filter.mpr ⟨List.mem_map_of_mem _ hq, by simp [hqn]⟩)
    rw [hone] at hcp
    simpa [Function.comp] using hcp.symm

/-- C8: duplicate ids: a batch with two equal non-null ids (JSON-value
equality, i.e. the non-null ids are not pairwise distinct) fails whole
with the -32600 duplicate id error and dispatches nothing upstream;
null ids are exempt, so a batch whose non-null ids are pairwise
distinct is processed normally however many null-id entries it
contains. -/
theorem batch_duplicate_ids (cfg : Config) (beh : String → String → Json)
    (xfh : Option String) (hostHeader : String) (cursor : Nat)
    (batch : List RPCReq) :
    (¬ ((batch.map (·.id)).filter (fun i => !(i.isNull))).Nodup →
      (handleBatch cfg beh xfh hostHeader cursor batch).result =
        .fatal ⟨-32600, "duplicate id"⟩ ∧
      (handleBatch cfg beh xfh hostHeader cursor batch).upcalls = []) ∧
    (((batch.map (·.id)).filter (fun i => !(i.isNull))).Nodup →
      (handleBatch cfg beh xfh hostHeader cursor batch).result =
        .ok (batchResponses cfg beh (extractHost xfh hostHeader) cursor batch)) := by
  rcases hd : dupNonNullIds (batch.map (·.id)) with _ | _
  · refine ⟨fun hnot => absurd ((dupNonNullIds_eq_false_iff _).mp hd) hnot, ?_⟩
    intro _
    simp [handleBatch, hd]
  · refine ⟨fun _ => ⟨by simp [handleBatch, hd], by simp [handleBatch, hd]⟩, ?_⟩
    intro hnd
    have hfalse : dupNonNullIds (batch.map (·.id)) = false :=
      (dupNonNullIds_eq_false_iff _).mpr hnd
    rw [hd] at hfalse
    exact Bool.noConfusion hfalse

theorem override_hit_short_circuits_witness :
    (handleSingle cfgEthCallOverride behMock none "127.0.0.1:8545" 0
        reqOverrideHit).response =
      { jsonrpc := "2.0", id := reqOverrideHit.id,
        result := some testOverrideRule.response, error := none } ∧
    (handleSingle cfgEthCallOverride behMock none "127.0.0.1:8545" 0
        reqOverrideHit).upcalls = [] ∧
    callsTo (handleSingle cfgEthCallOverride behMock none "127.0.0.1:8545" 0
        reqOverrideHit).upcalls "main_backend" = 0 := by
  have h := override_hit_short_circuits cfgEthCallOverride behMock none
    "127.0.0.1:8545" 0 reqOverrideHit testOverrideRule (by decide)
  exact ⟨h.2.1, h.2.2.1, h.2.2.2 "main_backend"⟩

theorem override_miss_forwards_witness :
    ruleMatches testOverrideRule reqOverrideMiss = false ∧
    (handleSingle cfgEthCallOverride behMock none "127.0.0.1:8545" 0
        reqOverrideMiss).upcalls = [⟨"main_backend", [reqOverrideMiss]⟩] ∧
    callsTo (handleSingle cfgEthCallOverride behMock none "127.0.0.1:8545" 0
        reqOverrideMiss).upcalls "main_backend" = 1 ∧
    (handleSingle cfgEthCallOverride behMock none "127.0.0.1:8545" 0
        reqOverrideMiss).response =
      { jsonrpc := "2.0", id := reqOverrideMiss.id,
        result := some (behMock "main_backend" reqOverrideMiss.method),
        error := none } := by
  have h := override_miss_forwards cfgEthCallOverride behMock none
    "127.0.0.1:8545" 0 testOverrideRule reqOverrideMiss "main" "main_backend"
    ⟨[.idx 0, .key "to"],
      .str "0xaBcD123456789012345678901234567890123456", true⟩
    (by decide) (by decide) (by decide) (by decide) (by decide) (by decide)
  exact h

theorem domain_mapping_overrides_default_witness :
    (handleSingle cfgDomainRouting behMock (some "domain1.example.com")
        "127.0.0.1:8545" 0 reqBlockNumber).group = some "group2" ∧
    (handleSingle cfgDomainRouting behMock (some "domain1.example.com")
        "127.0.0.1:8545" 0 reqBlockNumber).upcalls =
      [⟨"backend2", [reqBlockNumber]⟩] ∧
    callsTo (handleSingle cfgDomainRouting behMock (some "domain1.example.com")
        "127.0.0.1:8545" 0 reqBlockNumber).upcalls "backend2" = 1 ∧
    callsTo (handleSingle cfgDomainRouting behMock (some "domain1.example.com")
        "127.0.0.1:8545" 0 reqBlockNumber).upcalls "backend1" = 0 := by
  have h := domain_mapping_overrides_default cfgDomainRouting behMock
    (some "domain1.example.com") "127.0.0.1:8545" 0 reqBlockNumber
    domain1Mapping "group2" "backend2" (by decide) (by decide) (by decide)
    (by decide)
  exact ⟨h.1, h.2.1, h.2.2.1, h.2.2.2 "backend1" (by decide)⟩

theorem unknown_domain_falls_back_witness :
    (handleSingle cfgDomainRouting behMock (some "unknown.example.com")
        "127.0.0.1:8545" 0 reqBlockNumber).group = some "group1" ∧
    (handleSingle cfgDomainRouting behMock (some "unknown.example.com")
        "127.0.0.1:8545" 0 reqBlockNumber).upcalls =
      [⟨"backend1", [reqBlockNumber]⟩] ∧
    callsTo (handleSingle cfgDomainRouting behMock (some "unknown.example.com")
        "127.0.0.1:8545" 0 reqBlockNumber).upcalls "backend1" = 1 ∧
    callsTo (handleSingle cfgDomainRouting behMock (some "unknown.example.com")
        "127.0.0.1:8545" 0 reqBlockNumber).upcalls "backend2" = 0 := by
  have h := unknown_domain_falls_back cfgDomainRouting behMock
    (some "unknown.example.com") "127.0.0.1:8545" 0 reqBlockNumber
    "group1" "backend1" (by decide) (by decide) (by decide) (by decide)
  exact ⟨h.1, h.2.1, h.2.2.1, h.2.2.2 "backend2" (by decide)⟩

theorem batch_coalescing_witness :
    (handleBatch cfgMixed behMock (some "domain1.example.com")
        "127.0.0.1:8545" 0
        [reqBlockNumber, reqOverrideHitB, reqCallMissB, reqChainId]).upcalls.filter
        (fun u => u.backend == "backend2") =
      [⟨"backend2", [reqBlockNumber, reqChainId]⟩] ∧
    callsTo (handleBatch cfgMixed behMock (some "domain1.example.com")
        "127.0.0.1:8545" 0
        [reqBlockNumber, reqOverrideHitB, reqCallMissB, reqChainId]).upcalls
      "backend2" = 1 := by
  have h := batch_coalescing cfgMixed behMock (some "domain1.example.com")
    "127.0.0.1:8545" 0
    [reqBlockNumber, reqOverrideHitB, reqCallMissB, reqChainId] "backend2"
    (by decide) (by decide)
  refine ⟨?_, h.2⟩
  rw [h.1]
  decide

theorem batch_id_preservation_witness :
    (handleBatch cfgDomainRouting behMock none "127.0.0.1:8545" 0
        [reqBlockNumber, reqNotification, reqChainId]).result =
      .ok (batchResponses cfgDomainRouting behMock
        (extractHost none "127.0.0.1:8545") 0
        [reqBlockNumber, reqNotification, reqChainId]) ∧
    (batchResponses cfgDomainRouting behMock
        (extractHost none "127.0.0.1:8545") 0
        [reqBlockNumber, reqNotification, reqChainId]).map (·.id) =
      [Json.str "1", Json.str "2"] ∧
    (batchResponses cfgDomainRouting behMock
        (extractHost none "127.0.0.1:8545") 0
        [reqBlockNumber, reqNotification, reqChainId]).countP
      (fun r => jsonBeq r.id reqBlockNumber.id) = 1 := by
  have h := batch_id_preservation cfgDomainRouting behMock none
    "127.0.0.1:8545" 0 [reqBlockNumber, reqNotification, reqChainId]
    (by decide)
  refine ⟨h.1, ?_, h.2.2.2 reqBlockNumber (by decide) (by decide)⟩
  rw [h.2.1]
  decide

theorem batch_duplicate_ids_witness :
    (handleBatch cfgDomainRouting behMock none "127.0.0.1:8545" 0
        [reqBlockNumber, reqDupId]).result =
      .fatal ⟨-32600, "duplicate id"⟩ ∧
    (handleBatch cfgDomainRouting behMock none "127.0.0.1:8545" 0
        [reqBlockNumber, reqDupId]).upcalls = [] ∧
    (handleBatch cfgDomainRouting behMock none "127.0.0.1:8545" 0
        [reqNotification, reqNotification]).result =
      .ok (batchResponses cfgDomainRouting behMock
        (extractHost none "127.0.0.1:8545") 0
        [reqNotification, reqNotification]) := by
  have h1 := (batch_duplicate_ids cfgDomainRouting behMock none
    "127.0.0.1:8545" 0 [reqBlockNumber, reqDupId]).1 (by decide)
  have h2 := (batch_duplicate_ids cfgDomainRouting behMock none
    "127.0.0.1:8545" 0 [reqNotification, reqNotification]).2 (by decide)
  exact ⟨h1.1, h1.2, h2⟩
